import Mathlib

/-!
Shallow embedding of the HROne ecommerce backend (src/main.py).

The document store is modelled as two lists of id-keyed documents
(`products` and `orders`); Mongo ObjectIds become `Nat`, Python floats
become `Rat`, Python ints become `Int`.  Serialization of `_id` to a
string is an injective relabelling and is left implicit: responses are
compared on the document lists themselves.
-/

namespace Ecom

/-- A product document, as inserted by `create_product` (pydantic
`ProductCreate`: name, price, quantity; no `size` field exists). -/
structure Product where
  name : String
  price : Rat
  quantity : Int
deriving DecidableEq

/-- One requested item of an order (pydantic `OrderItem`). -/
structure OrderItem where
  product_id : Nat
  bought_quantity : Int
deriving DecidableEq

/-- Free-form `user_address` payload (Dict[str, Any] in the source);
the system copies it verbatim, so key/value strings suffice. -/
abbrev Address := List (String × String)

/-- The body of POST /orders (pydantic `OrderCreate`). -/
structure OrderCreate where
  items : List OrderItem
  user_address : Address
deriving DecidableEq

/-- A recorded order line item, as appended to `order_items` in
`create_order`: product id, bought quantity, unit price snapshot and
line total. -/
structure LineItem where
  product_id : Nat
  bought_quantity : Int
  price : Rat
  total_price : Rat
deriving DecidableEq

/-- An order document, as inserted into the `orders` collection. -/
structure Order where
  items : List LineItem
  total_amount : Rat
  user_address : Address
  timestamp : String
deriving DecidableEq

/-- The two collections of the database `ecommerce`. Documents carry
their store-assigned id. -/
structure Store where
  products : List (Nat × Product)
  orders : List (Nat × Order)
deriving DecidableEq

/-- The domain errors raised by `create_order`: HTTP 404 with detail
naming the missing product id, and HTTP 400 naming the product. -/
inductive OrderError where
  | notFound (product_id : Nat)
  | insufficientStock (name : String)
deriving DecidableEq

/-- The status code each domain error carries at its raise site
(`HTTPException(status_code=404)` at src/main.py:229 resp.
`status_code=400` at line 233).  This is not what the caller observes:
the wrapper at line 268 intercepts the exception first, see
`create_order_http`. -/
def httpStatusOf : OrderError → Nat
  | .notFound _ => 404
  | .insufficientStock _ => 400

/-- The `detail` string each domain error carries at its raise site,
as built by the f-strings in src/main.py lines 229 and 235. -/
def detailOf : OrderError → String
  | .notFound pid => "Product with id " ++ toString pid ++ " not found"
  | .insufficientStock nm => "Not enough quantity available for product " ++ nm

/-- `products_collection.find_one({"_id": oid})`: first document whose
id matches. -/
def findProduct : List (Nat × Product) → Nat → Option Product
  | [], _ => none
  | p :: ps, pid => if p.1 = pid then some p.2 else findProduct ps pid

/-- `products_collection.update_one({"_id": oid}, {"$set": {"quantity": v}})`:
set the quantity of the first document whose id matches. -/
def updateQuantity : List (Nat × Product) → Nat → Int → List (Nat × Product)
  | [], _, _ => []
  | p :: ps, pid, v =>
      if p.1 = pid then (p.1, { p.2 with quantity := v }) :: ps
      else p :: updateQuantity ps pid v

/-- The quantity currently stored for a product id, when one exists. -/
def qtyOf (ps : List (Nat × Product)) (pid : Nat) : Option Int :=
  (findProduct ps pid).map Product.quantity

/-- The per-item loop of `create_order` (src/main.py lines 224-255):
look the product up, fail 404 if absent, fail 400 if
`product["quantity"] < item.bought_quantity`, otherwise accumulate the
line item and immediately write the decremented quantity back.  The
returned product list reflects every write performed before a failure:
the source issues `update_one` per item as it validates, so an error
leaves earlier decrements applied. -/
def processItems : List (Nat × Product) → List OrderItem → List LineItem → Rat →
    List (Nat × Product) × Except OrderError (List LineItem × Rat)
  | ps, [], acc, total => (ps, .ok (acc, total))
  | ps, item :: rest, acc, total =>
    match findProduct ps item.product_id with
    | none => (ps, .error (.notFound item.product_id))
    | some product =>
      if product.quantity < item.bought_quantity then
        (ps, .error (.insufficientStock product.name))
      else
        processItems
          (updateQuantity ps item.product_id (product.quantity - item.bought_quantity))
          rest
          (acc ++ [{ product_id := item.product_id,
                     bought_quantity := item.bought_quantity,
                     price := product.price,
                     total_price := product.price * (item.bought_quantity : Rat) }])
          (total + product.price * (item.bought_quantity : Rat))

/-- POST /orders (`create_order`): run the per-item loop starting from
`total_amount = 0.0` and `order_items = []`; on success insert one
order document built from the accumulated lines, the running total,
the verbatim address and the timestamp; on a domain error insert
nothing, keeping whatever product writes already happened.  `oid` is
the store-assigned id of the new order document, `ts` the
`datetime.utcnow().isoformat()` text. -/
def create_order (s : Store) (order : OrderCreate) (ts : String) (oid : Nat) :
    Store × Except OrderError Unit :=
  match processItems s.products order.items [] 0 with
  | (ps, .error e) => ({ s with products := ps }, .error e)
  | (ps, .ok (order_items, total_amount)) =>
    ({ products := ps,
       orders := s.orders ++ [(oid, { items := order_items,
                                      total_amount := total_amount,
                                      user_address := order.user_address,
                                      timestamp := ts })] },
     .ok ())

/-- POST /products (`create_product`): insert the request document as
is; no validation of price or quantity.  `nid` is the store-assigned
id. -/
def create_product (s : Store) (nid : Nat) (p : Product) : Store :=
  { s with products := s.products ++ [(nid, p)] }

/-- Does `pat` occur at the head of `hay`? (character lists). -/
def leadsWith : List Char → List Char → Bool
  | [], _ => true
  | _ :: _, [] => false
  | p :: ps, c :: cs => (p == c) && leadsWith ps cs

/-- Does `pat` occur contiguously anywhere in `hay`? Python s `pat in hay`
on strings, over explicit character lists. -/
def containsSub : List Char → List Char → Bool
  | [], pat => pat.isEmpty
  | c :: cs, pat => leadsWith pat (c :: cs) || containsSub cs pat

/-- Python substring test `pat in hay` (case sensitive). -/
def hasSub (hay pat : String) : Bool :=
  containsSub hay.data pat.data

/-- Case-insensitive substring containment of `pat` in `hay`, the
matching that section 4.1 of the spec ascribes to the name filter. -/
def hasSubI (hay pat : String) : Bool :=
  containsSub (hay.data.map Char.toLower) (pat.data.map Char.toLower)

/-- One atom of the modelled regex fragment: a literal character or
the any-character wildcard written `.` in the pattern. -/
inductive RAtom where
  | rchar (c : Char)
  | rdot
deriving DecidableEq

/-- The PCRE metacharacters; a pattern containing none of them (nor a
dot) is matched purely literally. Braces are written by code point. -/
def regexMeta : List Char :=
  ['\\', '^', '$', '.', '|', '?', '*', '+', '(', ')', '[', ']',
   Char.ofNat 123, Char.ofNat 125]

/-- Parse a pattern into the modelled fragment: `.` becomes the
wildcard, a non-metacharacter becomes a literal, any other
metacharacter is outside the fragment. -/
def parseSimple : List Char → Option (List RAtom)
  | [] => some []
  | c :: rest =>
    if c = '.' then (parseSimple rest).map (RAtom.rdot :: ·)
    else if regexMeta.contains c then none
    else (parseSimple rest).map (RAtom.rchar c :: ·)

/-- Case-insensitive match of one atom against one subject character:
a literal compares lowercased (the `i` option), the wildcard matches
any character except newline (PCRE default). -/
def atomMatch : RAtom → Char → Bool
  | .rchar x, c => x.toLower == c.toLower
  | .rdot, c => c != Char.ofNat 10

/-- Match the whole atom list at the head of the subject. -/
def matchHere : List RAtom → List Char → Bool
  | [], _ => true
  | _ :: _, [] => false
  | a :: as, c :: cs => atomMatch a c && matchHere as cs

/-- Unanchored search: try the match at every position. -/
def searchFrom : List RAtom → List Char → Bool
  | pat, [] => matchHere pat []
  | pat, c :: cs => matchHere pat (c :: cs) || searchFrom pat cs

/-- Modelled from the spec: the document store s evaluation of
`{"$regex": pat, "$options": "i"}` against a name, an external
collaborator not present in src/.  The model covers patterns made of
literal characters and the `.` wildcard, the fragment the claims
exercise; a pattern using any other metacharacter falls back to plain
case-insensitive substring containment. -/
def regexSearchI (pat nm : String) : Bool :=
  match parseSimple pat.data with
  | some atoms => searchFrom atoms nm.data
  | none => hasSubI nm pat

/-- The query filter built by `list_products` and `root`, evaluated on
one product document: `if name:` adds the case-insensitive regex on
`name`; `if size:` adds an equality on the `size` field, which no
product document carries, so a non-empty size filter matches
nothing. -/
def queryFilter (name size : Option String) (p : Product) : Bool :=
  (match name with
   | none => true
   | some f => if f = "" then true else regexSearchI f p.name)
  &&
  (match size with
   | none => true
   | some sz => if sz = "" then true else false)

/-- `cursor.skip(offset).limit(limit)`: drop `offset` documents then
cap at `limit`; in the store a limit of 0 means no limit. -/
def mongoPage (limit offset : Nat) (xs : List α) : List α :=
  if limit = 0 then xs.drop offset else (xs.drop offset).take limit

/-- GET /products (`list_products`): filter, then paginate. -/
def list_products (s : Store) (name size : Option String) (limit offset : Nat) :
    List (Nat × Product) :=
  mongoPage limit offset (s.products.filter (fun p => queryFilter name size p.2))

/-- GET /orders/user_id (`get_user_orders`): the source never uses the
`user_id` path parameter; it pages over the whole orders collection. -/
def get_user_orders (s : Store) (user_id : String) (limit offset : Nat) :
    List (Nat × Order) :=
  mongoPage limit offset s.orders

/-- The two body shapes GET / and GET /products can answer with: the
plain object with the single key `products`, or the object carrying
`message`, `products`, `note` and `status` keys in that order. -/
inductive ProductsResponse where
  | plain (products : List (Nat × Product))
  | withInfo (message : String) (products : List (Nat × Product))
      (note : String) (status : String)
deriving DecidableEq

/-- GET / (`root`): runs the same query as `list_products`; when the
result is empty it answers with the informational body, otherwise with
the plain products body. -/
def root (s : Store) (name size : Option String) (limit offset : Nat) :
    ProductsResponse :=
  let serialized_products := list_products s name size limit offset
  if serialized_products.isEmpty then
    .withInfo "Ecommerce Backend API is running!" []
      "No products found. Use POST /products to add products."
      "Database connected successfully"
  else
    .plain serialized_products

/-- GET /products wrapped in the same response type, for comparison
with the root endpoint: always the plain body. -/
def listProductsResponse (s : Store) (name size : Option String)
    (limit offset : Nat) : ProductsResponse :=
  .plain (list_products s name size limit offset)

/-- `handle_db_operation` s exception branch (src/main.py lines 96-104):
from the text of the escaped store exception, the HTTP status and
detail of the response: 503 with a fixed message when the text
contains "SSL" or "handshake", otherwise 500 with the raw text
embedded in the detail. -/
def handle_db_operation (error_msg : String) : Nat × String :=
  if hasSub error_msg "SSL" || hasSub error_msg "handshake" then
    (503, "Database connection issue. Please check MongoDB Atlas configuration.")
  else
    (500, "Database error: " ++ error_msg)

/-- Modelled from the spec: the textual form the HTTP framework (an
external collaborator, not in src/) gives a raised HTTP error when it
is stringified as a plain exception, `str(e)` of an `HTTPException`:
the status code and the detail joined by ": ". -/
def strOfHTTPException (status : Nat) (detail : String) : String :=
  toString status ++ ": " ++ detail

/-- POST /orders as observed at the HTTP boundary (src/main.py lines
214-275).  The per-item loop runs inside `handle_db_operation` (called
at line 268), whose blanket exception handler also catches the domain
errors raised at lines 229 and 233, since `HTTPException` is a plain
`Exception` subclass: the caught error is stringified and fed back
through the wrapper, whose own response the endpoint then propagates
unchanged via its `except HTTPException: raise`.  On success the
endpoint answers 201 with the acknowledgment message. -/
def create_order_http (s : Store) (order : OrderCreate) (ts : String)
    (oid : Nat) : Store × Nat × String :=
  match create_order s order ts oid with
  | (s₂, .ok _) => (s₂, 201, "Order created successfully")
  | (s₂, .error e) =>
      (s₂, handle_db_operation
        (strOfHTTPException (httpStatusOf e) (detailOf e)))

/-! Specification-side descriptions of the order flow, used to state
the claims; each is compared against the executable embedding above. -/

/-- Sequential fulfillability: every item finds its product and passes
the stock check, in the state left by the decrements of the earlier
items of the same request. -/
def itemsOk : List (Nat × Product) → List OrderItem → Bool
  | _, [] => true
  | ps, item :: rest =>
    match findProduct ps item.product_id with
    | none => false
    | some product =>
      !(product.quantity < item.bought_quantity) &&
      itemsOk (updateQuantity ps item.product_id
                (product.quantity - item.bought_quantity)) rest

/-- The product list after applying the per-item decrements of a
request in order (items whose product is absent change nothing). -/
def applyDecrements (ps : List (Nat × Product)) (items : List OrderItem) :
    List (Nat × Product) :=
  items.foldl
    (fun ps item =>
      match findProduct ps item.product_id with
      | none => ps
      | some product =>
          updateQuantity ps item.product_id
            (product.quantity - item.bought_quantity))
    ps

/-- Total quantity of one product id bought across a request. -/
def boughtTotal : List OrderItem → Nat → Int
  | [], _ => 0
  | item :: rest, pid =>
      (if item.product_id = pid then item.bought_quantity else 0) +
      boughtTotal rest pid

/-- The two ways the per-item loop can reject an item in a given
product state, together with the error it raises. -/
def stepFailsAt (ps : List (Nat × Product)) (item : OrderItem)
    (e : OrderError) : Prop :=
  (findProduct ps item.product_id = none ∧ e = .notFound item.product_id) ∨
  (∃ p, findProduct ps item.product_id = some p ∧
        p.quantity < item.bought_quantity ∧ e = .insufficientStock p.name)

/-! Sample fixtures used by the concrete witnesses and
counterexamples. `sampleStore` holds the two products of the spec s
examples: a Laptop with quantity 5 and a Desk. -/

def emptyStore : Store := ⟨[], []⟩

def sampleStore : Store :=
  ⟨[(1, ⟨"Laptop", 999, 5⟩), (2, ⟨"Desk", 50, 4⟩)], []⟩

def sampleOrder : OrderCreate := ⟨[⟨1, 2⟩], [("city", "NY")]⟩

def sampleOrderFail : OrderCreate := ⟨[⟨1, 2⟩, ⟨99, 1⟩], [("city", "NY")]⟩

def sampleOrderTooMany : OrderCreate := ⟨[⟨1, 9⟩], []⟩

/-! Equation lemmas for the order-flow definitions. -/

theorem processItems_nil (ps : List (Nat × Product)) (acc : List LineItem)
    (tot : Rat) : processItems ps [] acc tot = (ps, .ok (acc, tot)) := rfl

theorem processItems_cons_none (ps : List (Nat × Product)) (item : OrderItem)
    (rest : List OrderItem) (acc : List LineItem) (tot : Rat)
    (h : findProduct ps item.product_id = none) :
    processItems ps (item :: rest) acc tot =
      (ps, .error (.notFound item.product_id)) := by
  simp only [processItems, h]

theorem processItems_cons_insuff (ps : List (Nat × Product)) (item : OrderItem)
    (rest : List OrderItem) (acc : List LineItem) (tot : Rat) (p : Product)
    (h : findProduct ps item.product_id = some p)
    (hq : p.quantity < item.bought_quantity) :
    processItems ps (item :: rest) acc tot =
      (ps, .error (.insufficientStock p.name)) := by
  simp only [processItems, h, if_pos hq]

theorem processItems_cons_ok (ps : List (Nat × Product)) (item : OrderItem)
    (rest : List OrderItem) (acc : List LineItem) (tot : Rat) (p : Product)
    (h : findProduct ps item.product_id = some p)
    (hq : ¬ p.quantity < item.bought_quantity) :
    processItems ps (item :: rest) acc tot =
      processItems
        (updateQuantity ps item.product_id (p.quantity - item.bought_quantity))
        rest
        (acc ++ [{ product_id := item.product_id,
                   bought_quantity := item.bought_quantity,
                   price := p.price,
                   total_price := p.price * (item.bought_quantity : Rat) }])
        (tot + p.price * (item.bought_quantity : Rat)) := by
  simp only [processItems, h, if_neg hq]

theorem itemsOk_nil (ps : List (Nat × Product)) : itemsOk ps [] = true := rfl

theorem itemsOk_cons_none (ps : List (Nat × Product)) (item : OrderItem)
    (rest : List OrderItem) (h : findProduct ps item.product_id = none) :
    itemsOk ps (item :: rest) = false := by
  simp only [itemsOk, h]

theorem itemsOk_cons_found (ps : List (Nat × Product)) (item : OrderItem)
    (rest : List OrderItem) (p : Product)
    (h : findProduct ps item.product_id = some p) :
    itemsOk ps (item :: rest) =
      (!(p.quantity < item.bought_quantity) &&
        itemsOk (updateQuantity ps item.product_id
                  (p.quantity - item.bought_quantity)) rest) := by
  simp only [itemsOk, h]

theorem applyDecrements_nil (ps : List (Nat × Product)) :
    applyDecrements ps [] = ps := rfl

theorem applyDecrements_cons_none (ps : List (Nat × Product)) (item : OrderItem)
    (rest : List OrderItem) (h : findProduct ps item.product_id = none) :
    applyDecrements ps (item :: rest) = applyDecrements ps rest := by
  simp only [applyDecrements, List.foldl_cons, h]

theorem applyDecrements_cons_found (ps : List (Nat × Product)) (item : OrderItem)
    (rest : List OrderItem) (p : Product)
    (h : findProduct ps item.product_id = some p) :
    applyDecrements ps (item :: rest) =
      applyDecrements
        (updateQuantity ps item.product_id (p.quantity - item.bought_quantity))
        rest := by
  simp only [applyDecrements, List.foldl_cons, h]

/-! Interaction of lookup and quantity update. -/

theorem findProduct_updateQuantity_self (ps : List (Nat × Product)) (pid : Nat)
    (v : Int) (p : Product) (h : findProduct ps pid = some p) :
    findProduct (updateQuantity ps pid v) pid = some { p with quantity := v } := by
  induction ps with
  | nil => simp [findProduct] at h
  | cons q qs ih =>
    simp only [findProduct] at h
    simp only [updateQuantity]
    by_cases hq : q.1 = pid
    · rw [if_pos hq] at h
      rw [if_pos hq]
      injection h with h
      simp [findProduct, hq, h]
    · rw [if_neg hq] at h
      rw [if_neg hq]
      simp only [findProduct, if_neg hq]
      exact ih h

theorem findProduct_updateQuantity_ne (ps : List (Nat × Product))
    (pid pid' : Nat) (v : Int) (hne : pid' ≠ pid) :
    findProduct (updateQuantity ps pid v) pid' = findProduct ps pid' := by
  induction ps with
  | nil => rfl
  | cons q qs ih =>
    simp only [updateQuantity]
    by_cases hq : q.1 = pid
    · rw [if_pos hq]
      have hne' : ¬ q.1 = pid' := by
        rw [hq]; exact fun hh => hne hh.symm
      simp [findProduct, hne']
    · rw [if_neg hq]
      simp only [findProduct]
      by_cases hq' : q.1 = pid'
      · rw [if_pos hq', if_pos hq']
      · rw [if_neg hq', if_neg hq']
        exact ih

/-! Runs of the per-item loop. -/

theorem processItems_of_itemsOk (items : List OrderItem) :
    ∀ ps acc tot, itemsOk ps items = true →
    ∃ lines total,
      processItems ps items acc tot =
        (applyDecrements ps items, .ok (lines, total)) := by
  induction items with
  | nil => intro ps acc tot _; exact ⟨acc, tot, rfl⟩
  | cons item rest ih =>
    intro ps acc tot h
    cases hfind : findProduct ps item.product_id with
    | none =>
      rw [itemsOk_cons_none ps item rest hfind] at h
      simp at h
    | some p =>
      rw [itemsOk_cons_found ps item rest p hfind, Bool.and_eq_true] at h
      obtain ⟨hq, hrest⟩ := h
      have hq' : ¬ p.quantity < item.bought_quantity := by simpa using hq
      rw [processItems_cons_ok ps item rest acc tot p hfind hq',
          applyDecrements_cons_found ps item rest p hfind]
      exact ih _ _ _ hrest

theorem processItems_ok_spec (items : List OrderItem) :
    ∀ ps acc tot ps₂ lines total,
    processItems ps items acc tot = (ps₂, .ok (lines, total)) →
    ∃ nl, lines = acc ++ nl ∧
      total = tot + ((nl.map LineItem.total_price).sum) ∧
      (∀ l ∈ nl, l.total_price = l.price * (l.bought_quantity : Rat)) ∧
      ps₂ = applyDecrements ps items ∧
      itemsOk ps items = true := by
  induction items with
  | nil =>
    intro ps acc tot ps₂ lines total h
    rw [processItems_nil] at h
    injection h with h1 h2
    injection h2 with h2
    injection h2 with h2a h2b
    refine ⟨[], by rw [h2a, List.append_nil], by rw [h2b]; simp, ?_, ?_, rfl⟩
    · intro l hl; simp at hl
    · rw [applyDecrements_nil, h1]
  | cons item rest ih =>
    intro ps acc tot ps₂ lines total h
    cases hfind : findProduct ps item.product_id with
    | none =>
      rw [processItems_cons_none _ _ _ _ _ hfind] at h
      simp at h
    | some p =>
      by_cases hq : p.quantity < item.bought_quantity
      · rw [processItems_cons_insuff _ _ _ _ _ p hfind hq] at h
        simp at h
      · rw [processItems_cons_ok _ _ _ _ _ p hfind hq] at h
        obtain ⟨nl, hlines, htot, hall, hps, hok⟩ := ih _ _ _ _ _ _ h
        refine ⟨{ product_id := item.product_id,
                  bought_quantity := item.bought_quantity,
                  price := p.price,
                  total_price := p.price * (item.bought_quantity : Rat) } :: nl,
                ?_, ?_, ?_, ?_, ?_⟩
        · rw [hlines, List.append_assoc]; rfl
        · rw [htot]; simp only [List.map_cons, List.sum_cons]; ring
        · intro l hl
          rcases List.mem_cons.mp hl with h1 | h2
          · rw [h1]
          · exact hall l h2
        · rw [hps, applyDecrements_cons_found _ _ _ p hfind]
        · rw [itemsOk_cons_found _ _ _ p hfind]
          simp [hq, hok]

theorem processItems_error_spec (items : List OrderItem) :
    ∀ ps acc tot ps₂ e,
    processItems ps items acc tot = (ps₂, .error e) →
    ∃ k, ∃ hk : k < items.length,
      itemsOk ps (items.take k) = true ∧
      ps₂ = applyDecrements ps (items.take k) ∧
      stepFailsAt (applyDecrements ps (items.take k)) (items.get ⟨k, hk⟩) e := by
  induction items with
  | nil =>
    intro ps acc tot ps₂ e h
    rw [processItems_nil] at h
    simp at h
  | cons item rest ih =>
    intro ps acc tot ps₂ e h
    cases hfind : findProduct ps item.product_id with
    | none =>
      rw [processItems_cons_none _ _ _ _ _ hfind] at h
      injection h with h1 h2
      injection h2 with h2
      refine ⟨0, by simp, rfl, h1.symm, ?_⟩
      left
      exact ⟨hfind, h2.symm⟩
    | some p =>
      by_cases hq : p.quantity < item.bought_quantity
      · rw [processItems_cons_insuff _ _ _ _ _ p hfind hq] at h
        injection h with h1 h2
        injection h2 with h2
        refine ⟨0, by simp, rfl, h1.symm, ?_⟩
        right
        exact ⟨p, hfind, hq, h2.symm⟩
      · rw [processItems_cons_ok _ _ _ _ _ p hfind hq] at h
        obtain ⟨k, hk, hok, hps, hfail⟩ := ih _ _ _ _ _ h
        refine ⟨k + 1, Nat.succ_lt_succ hk, ?_, ?_, ?_⟩
        · rw [List.take_succ_cons, itemsOk_cons_found _ _ _ p hfind]
          simp [hq, hok]
        · rw [List.take_succ_cons,
              applyDecrements_cons_found _ _ _ p hfind]
          exact hps
        · rw [List.take_succ_cons,
              applyDecrements_cons_found _ _ _ p hfind]
          exact hfail

theorem processItems_append (pre : List OrderItem) :
    ∀ post ps acc tot, itemsOk ps pre = true →
    ∃ acc₂ tot₂,
      processItems ps (pre ++ post) acc tot =
        processItems (applyDecrements ps pre) post acc₂ tot₂ := by
  induction pre with
  | nil => intro post ps acc tot _; exact ⟨acc, tot, rfl⟩
  | cons item rest ih =>
    intro post ps acc tot h
    cases hfind : findProduct ps item.product_id with
    | none =>
      rw [itemsOk_cons_none _ _ _ hfind] at h
      simp at h
    | some p =>
      rw [itemsOk_cons_found _ _ _ p hfind, Bool.and_eq_true] at h
      obtain ⟨hq, hrest⟩ := h
      have hq' : ¬ p.quantity < item.bought_quantity := by simpa using hq
      rw [List.cons_append, processItems_cons_ok _ _ _ _ _ p hfind hq',
          applyDecrements_cons_found _ _ _ p hfind]
      exact ih post _ _ _ hrest

theorem qtyOf_applyDecrements (items : List OrderItem) :
    ∀ ps, itemsOk ps items = true → ∀ pid,
      qtyOf (applyDecrements ps items) pid =
        (qtyOf ps pid).map (fun q => q - boughtTotal items pid) := by
  induction items with
  | nil =>
    intro ps _ pid
    rw [applyDecrements_nil]
    cases h : qtyOf ps pid <;> simp [boughtTotal]
  | cons item rest ih =>
    intro ps h pid
    cases hfind : findProduct ps item.product_id with
    | none =>
      rw [itemsOk_cons_none _ _ _ hfind] at h
      simp at h
    | some p =>
      rw [itemsOk_cons_found _ _ _ p hfind, Bool.and_eq_true] at h
      obtain ⟨hq, hrest⟩ := h
      rw [applyDecrements_cons_found _ _ _ p hfind, ih _ hrest pid]
      by_cases hpid : item.product_id = pid
      · subst hpid
        rw [qtyOf, findProduct_updateQuantity_self ps _ _ p hfind, qtyOf, hfind]
        simp only [boughtTotal, if_pos rfl, Option.map_some']
        congr 1
        simp only [eq_self_iff_true, if_true]
        ring
      · rw [qtyOf, findProduct_updateQuantity_ne ps _ pid _
              (fun hh => hpid hh.symm)]
        rw [qtyOf]
        cases hres : findProduct ps pid <;>
          simp [boughtTotal, hpid, hres]

/-! Preservation of non-negative stock. -/

theorem updateQuantity_nonneg (ps : List (Nat × Product)) (pid : Nat) (v : Int)
    (h : ∀ x ∈ ps, 0 ≤ x.2.quantity) (hv : 0 ≤ v) :
    ∀ x ∈ updateQuantity ps pid v, 0 ≤ x.2.quantity := by
  induction ps with
  | nil => intro x hx; simp [updateQuantity] at hx
  | cons q qs ih =>
    intro x hx
    simp only [updateQuantity] at hx
    by_cases hq : q.1 = pid
    · rw [if_pos hq] at hx
      rcases List.mem_cons.mp hx with h1 | h2
      · rw [h1]; exact hv
      · exact h x (List.mem_cons_of_mem _ h2)
    · rw [if_neg hq] at hx
      rcases List.mem_cons.mp hx with h1 | h2
      · rw [h1]; exact h q (List.mem_cons_self _ _)
      · exact ih (fun y hy => h y (List.mem_cons_of_mem _ hy)) x h2

theorem processItems_fst_nonneg (items : List OrderItem) :
    ∀ ps acc tot, (∀ x ∈ ps, 0 ≤ x.2.quantity) →
    ∀ x ∈ (processItems ps items acc tot).1, 0 ≤ x.2.quantity := by
  induction items with
  | nil => intro ps acc tot h; simpa [processItems_nil] using h
  | cons item rest ih =>
    intro ps acc tot h
    cases hfind : findProduct ps item.product_id with
    | none => rw [processItems_cons_none _ _ _ _ _ hfind]; exact h
    | some p =>
      by_cases hq : p.quantity < item.bought_quantity
      · rw [processItems_cons_insuff _ _ _ _ _ p hfind hq]; exact h
      · rw [processItems_cons_ok _ _ _ _ _ p hfind hq]
        apply ih
        apply updateQuantity_nonneg _ _ _ h
        omega

theorem create_order_products_eq (s : Store) (req : OrderCreate)
    (ts : String) (oid : Nat) :
    (create_order s req ts oid).1.products =
      (processItems s.products req.items [] 0).1 := by
  unfold create_order
  cases hp : processItems s.products req.items [] 0 with
  | mk ps₂ res =>
    cases res with
    | error e => rfl
    | ok v =>
      rcases v with ⟨lines, total⟩
      rfl

/-! Substring search and the literal fragment of the regex model. -/

theorem leadsWith_self (xs : List Char) : leadsWith xs xs = true := by
  induction xs with
  | nil => rfl
  | cons c cs ih => simp [leadsWith, ih]

theorem containsSub_append_self (a m : List Char) :
    containsSub (a ++ m) m = true := by
  induction a with
  | nil =>
    cases m with
    | nil => rfl
    | cons c cs => simp [containsSub, leadsWith_self]
  | cons x a₂ ih => simp [containsSub, ih]

theorem leadsWith_mem (pat : List Char) :
    ∀ hay, leadsWith pat hay = true → ∀ c ∈ pat, c ∈ hay := by
  induction pat with
  | nil => intro hay _ c hc; simp at hc
  | cons p ps ih =>
    intro hay hl c hc
    cases hay with
    | nil => simp [leadsWith] at hl
    | cons d ds =>
      simp only [leadsWith, Bool.and_eq_true, beq_iff_eq] at hl
      obtain ⟨hpd, hrest⟩ := hl
      rcases List.mem_cons.mp hc with h1 | h2
      · rw [h1, hpd]; exact List.mem_cons_self _ _
      · exact List.mem_cons_of_mem _ (ih ds hrest c h2)

theorem containsSub_eq_false_of_not_mem (c : Char) (pat : List Char)
    (hc : c ∈ pat) : ∀ hay, c ∉ hay → containsSub hay pat = false := by
  intro hay
  induction hay with
  | nil =>
    intro _
    cases pat with
    | nil => simp at hc
    | cons p ps => rfl
  | cons d ds ih =>
    intro hhay
    show (leadsWith pat (d :: ds) || containsSub ds pat) = false
    cases hl : leadsWith pat (d :: ds)
    · rw [Bool.false_or]
      exact ih (fun hmem => hhay (List.mem_cons_of_mem _ hmem))
    · exact absurd (leadsWith_mem pat (d :: ds) hl c hc) hhay

/-! Every character of the decimal rendering of a Nat is a digit; the
404 detail of the order loop therefore never contains the transport
markers the wrapper looks for, whatever the product id. -/

theorem digitChar_isDigit (m : Nat) (h : m < 10) :
    (Nat.digitChar m).isDigit = true := by
  interval_cases m <;> decide

theorem toDigitsCore_isDigit :
    ∀ (fuel n : Nat) (ds : List Char),
    (∀ c ∈ ds, c.isDigit = true) →
    ∀ c ∈ Nat.toDigitsCore 10 fuel n ds, c.isDigit = true := by
  intro fuel
  induction fuel with
  | zero => intro n ds h c hc; exact h c hc
  | succ fuel ih =>
    intro n ds h c hc
    simp only [Nat.toDigitsCore] at hc
    have hd : (Nat.digitChar (n % 10)).isDigit = true :=
      digitChar_isDigit _ (Nat.mod_lt _ (by decide))
    by_cases h10 : n / 10 = 0
    · rw [if_pos h10] at hc
      rcases List.mem_cons.mp hc with h1 | h2
      · rw [h1]; exact hd
      · exact h c h2
    · rw [if_neg h10] at hc
      refine ih _ _ ?_ c hc
      intro d hdm
      rcases List.mem_cons.mp hdm with h1 | h2
      · rw [h1]; exact hd
      · exact h d h2

theorem repr_isDigit (n : Nat) :
    ∀ c ∈ (Nat.repr n).data, c.isDigit = true := by
  intro c hc
  have hc₂ : c ∈ Nat.toDigitsCore 10 (n + 1) n [] := hc
  refine toDigitsCore_isDigit (n + 1) n [] ?_ c hc₂
  intro d hd
  simp at hd

theorem notFound_text_marker_free (pid : Nat) (c : Char)
    (hdig : c.isDigit = false)
    (hfix : (c ∈ "404".data ∨ c ∈ ": ".data ∨ c ∈ "Product with id ".data ∨
             c ∈ " not found".data) → False) :
    c ∉ (strOfHTTPException 404 (detailOf (.notFound pid))).data := by
  intro hmem
  simp only [strOfHTTPException, detailOf, String.data_append,
    List.mem_append] at hmem
  have h404 : (toString (404 : Nat)).data = "404".data := rfl
  rcases hmem with (h1 | h2) | (h3 | h4) | h5
  · rw [h404] at h1
    exact hfix (Or.inl h1)
  · exact hfix (Or.inr (Or.inl h2))
  · exact hfix (Or.inr (Or.inr (Or.inl h3)))
  · have : c.isDigit = true := repr_isDigit pid c h4
    rw [hdig] at this
    exact Bool.noConfusion this
  · exact hfix (Or.inr (Or.inr (Or.inr h5)))

theorem handle_db_operation_notFound_text (pid : Nat) :
    handle_db_operation (strOfHTTPException 404 (detailOf (.notFound pid))) =
      (500, "Database error: " ++
        strOfHTTPException 404 (detailOf (.notFound pid))) := by
  have hS : hasSub (strOfHTTPException 404 (detailOf (.notFound pid)))
      "SSL" = false := by
    unfold hasSub
    exact containsSub_eq_false_of_not_mem 'S' _ (by decide) _
      (notFound_text_marker_free pid 'S' (by decide) (by decide))
  have hH : hasSub (strOfHTTPException 404 (detailOf (.notFound pid)))
      "handshake" = false := by
    unfold hasSub
    exact containsSub_eq_false_of_not_mem 'k' _ (by decide) _
      (notFound_text_marker_free pid 'k' (by decide) (by decide))
  unfold handle_db_operation
  rw [hS, hH]
  rfl

theorem parseSimple_lits (pat : List Char)
    (h : ∀ c ∈ pat, ¬ regexMeta.contains c = true) :
    parseSimple pat = some (pat.map RAtom.rchar) := by
  induction pat with
  | nil => rfl
  | cons c rest ih =>
    have hc : ¬ regexMeta.contains c = true := h c (List.mem_cons_self _ _)
    have hdot : ¬ c = '.' := by
      intro hh
      exact hc (by rw [hh]; decide)
    simp only [parseSimple, if_neg hdot, if_neg hc]
    rw [ih (fun x hx => h x (List.mem_cons_of_mem _ hx))]
    rfl

theorem matchHere_lits (xs : List Char) :
    ∀ ys, matchHere (xs.map RAtom.rchar) ys =
      leadsWith (xs.map Char.toLower) (ys.map Char.toLower) := by
  induction xs with
  | nil => intro ys; rfl
  | cons x xs₂ ih =>
    intro ys
    cases ys with
    | nil => rfl
    | cons y ys₂ =>
      simp only [List.map_cons, matchHere, leadsWith, atomMatch]
      rw [ih ys₂]

theorem searchFrom_lits (xs : List Char) :
    ∀ ys, searchFrom (xs.map RAtom.rchar) ys =
      containsSub (ys.map Char.toLower) (xs.map Char.toLower) := by
  intro ys
  induction ys with
  | nil =>
    cases xs with
    | nil => rfl
    | cons x xs₂ => rfl
  | cons y ys₂ ih =>
    simp only [searchFrom, List.map_cons, containsSub]
    rw [matchHere_lits, ih]
    rfl

theorem regexSearchI_lits (f nm : String)
    (h : ∀ c ∈ f.data, ¬ regexMeta.contains c = true) :
    regexSearchI f nm = hasSubI nm f := by
  unfold regexSearchI
  rw [parseSimple_lits f.data h]
  show searchFrom (f.data.map RAtom.rchar) nm.data = hasSubI nm f
  rw [searchFrom_lits]
  rfl

/-! The claims. -/

/-- C1: when every item of an order request finds its product and
passes the stock check (in the state left by the decrements of the
earlier items of the same request), order placement succeeds: the
final stored quantity of every product id is its original quantity
minus the total bought quantity of that id, every recorded line item
has total_price equal to the captured price times bought_quantity, the
order document carries total_amount equal to the sum of the line
totals, and exactly one order record is appended. -/
theorem create_order_success (s : Store) (req : OrderCreate) (ts : String)
    (oid : Nat) (h : itemsOk s.products req.items = true) :
    ∃ (lines : List LineItem) (total : Rat),
      create_order s req ts oid =
        ({ products := applyDecrements s.products req.items,
           orders := s.orders ++
             [(oid, { items := lines, total_amount := total,
                      user_address := req.user_address,
                      timestamp := ts })] },
         .ok ()) ∧
      (∀ l ∈ lines, l.total_price = l.price * (l.bought_quantity : Rat)) ∧
      total = (lines.map LineItem.total_price).sum ∧
      (∀ pid, qtyOf (applyDecrements s.products req.items) pid =
        (qtyOf s.products pid).map
          (fun q => q - boughtTotal req.items pid)) := by
  obtain ⟨lines, total, hrun⟩ :=
    processItems_of_itemsOk req.items s.products [] 0 h
  obtain ⟨nl, hlines, htot, hall, -, -⟩ :=
    processItems_ok_spec req.items s.products [] 0 _ lines total hrun
  rw [List.nil_append] at hlines
  subst hlines
  refine ⟨lines, total, ?_, hall, ?_, qtyOf_applyDecrements req.items s.products h⟩
  · unfold create_order
    rw [hrun]
  · rw [htot, zero_add]

/-- C1 witness: the spec example, quantity 5 and bought_quantity 2 at
price 999: stock drops to 3 and total_amount is 1998. -/
theorem create_order_success_witness :
    itemsOk sampleStore.products sampleOrder.items = true ∧
    (∃ (lines : List LineItem) (total : Rat),
      create_order sampleStore sampleOrder "t" 7 =
        ({ products := applyDecrements sampleStore.products sampleOrder.items,
           orders := sampleStore.orders ++
             [(7, { items := lines, total_amount := total,
                    user_address := sampleOrder.user_address,
                    timestamp := "t" })] },
         .ok ()) ∧
      (∀ l ∈ lines, l.total_price = l.price * (l.bought_quantity : Rat)) ∧
      total = (lines.map LineItem.total_price).sum ∧
      (∀ pid, qtyOf (applyDecrements sampleStore.products sampleOrder.items) pid =
        (qtyOf sampleStore.products pid).map
          (fun q => q - boughtTotal sampleOrder.items pid))) ∧
    qtyOf (create_order sampleStore sampleOrder "t" 7).1.products 1 = some 3 ∧
    (create_order sampleStore sampleOrder "t" 7).1.orders.map
      (fun o => o.2.total_amount) = [1998] :=
  ⟨by decide, create_order_success sampleStore sampleOrder "t" 7 (by decide),
   by decide, by with_unfolding_all rfl⟩

/-- C2: when the per-item loop fails, the request fails on some item k
whose check rejects it in the state left by the first k decrements;
the decrements of items before k remain applied in the store and no
order record is inserted (`create_order` keeps `s.orders` untouched on
the error branch). -/
theorem create_order_failure_no_rollback (s : Store) (req : OrderCreate)
    (ts : String) (oid : Nat) (e : OrderError)
    (h : (processItems s.products req.items [] 0).2 = .error e) :
    ∃ k, ∃ hk : k < req.items.length,
      itemsOk s.products (req.items.take k) = true ∧
      create_order s req ts oid =
        ({ s with products := applyDecrements s.products (req.items.take k) },
         .error e) ∧
      stepFailsAt (applyDecrements s.products (req.items.take k))
        (req.items.get ⟨k, hk⟩) e := by
  have hpair : processItems s.products req.items [] 0 =
      ((processItems s.products req.items [] 0).1, .error e) := by
    rw [← h]
  obtain ⟨k, hk, hok, hps, hfail⟩ :=
    processItems_error_spec req.items s.products [] 0 _ e hpair
  refine ⟨k, hk, hok, ?_, hfail⟩
  unfold create_order
  rw [hpair, hps]

/-- C2 witness: buying 2 Laptops then referencing the absent product
99 leaves the Laptop stock at 3 and inserts no order. -/
theorem create_order_failure_no_rollback_witness :
    (processItems sampleStore.products sampleOrderFail.items [] 0).2 =
      .error (.notFound 99) ∧
    (∃ k, ∃ hk : k < sampleOrderFail.items.length,
      itemsOk sampleStore.products (sampleOrderFail.items.take k) = true ∧
      create_order sampleStore sampleOrderFail "t" 7 =
        ({ sampleStore with
            products := applyDecrements sampleStore.products
              (sampleOrderFail.items.take k) },
         .error (.notFound 99)) ∧
      stepFailsAt (applyDecrements sampleStore.products
          (sampleOrderFail.items.take k))
        (sampleOrderFail.items.get ⟨k, hk⟩) (.notFound 99)) ∧
    (create_order sampleStore sampleOrderFail "t" 7).1.products =
      [(1, ⟨"Laptop", 999, 3⟩), (2, ⟨"Desk", 50, 4⟩)] ∧
    (create_order sampleStore sampleOrderFail "t" 7).1.orders = [] :=
  ⟨rfl,
   create_order_failure_no_rollback sampleStore sampleOrderFail "t" 7
     (.notFound 99) rfl,
   by decide, rfl⟩

/-- C3 counterexample: the claim says a request hitting a nonexistent
product id fails with a 404-equivalent and does not alter the stock of
products referenced earlier in the same request; here the request
first buys 2 Laptops, then hits the absent id 99: the Laptop stock has
moved from 5 to 3, and the endpoint answers 500 with the wrapper
detail, because the wrapper s blanket exception handler catches the
404 raised inside the loop and re-raises its own response. -/
theorem create_order_notFound_alters_earlier_stock :
    qtyOf sampleStore.products 1 = some 5 ∧
    qtyOf (create_order_http sampleStore sampleOrderFail "t" 7).1.products 1 =
      some 3 ∧
    (create_order_http sampleStore sampleOrderFail "t" 7).2 =
      (500, "Database error: 404: Product with id 99 not found") :=
  ⟨by decide, by decide, rfl⟩

/-- C3 amended: when the first failing item of the request is item k
and its product id is absent, the loop raises NotFound (marked 404)
identifying the missing id, but the wrapper s blanket exception
handler intercepts it, so the endpoint answers 500 with detail
"Database error: 404: Product with id <id> not found"; no order
record is created, and the stock decrements of items before k remain
applied (earlier-referenced products are altered; there is no
rollback). -/
theorem create_order_notFound (s : Store) (req : OrderCreate) (ts : String)
    (oid : Nat) (k : Nat) (hk : k < req.items.length)
    (hpre : itemsOk s.products (req.items.take k) = true)
    (hmiss : findProduct (applyDecrements s.products (req.items.take k))
      (req.items.get ⟨k, hk⟩).product_id = none) :
    create_order s req ts oid =
      ({ s with products := applyDecrements s.products (req.items.take k) },
       .error (.notFound (req.items.get ⟨k, hk⟩).product_id)) ∧
    httpStatusOf (.notFound (req.items.get ⟨k, hk⟩).product_id) = 404 ∧
    create_order_http s req ts oid =
      ({ s with products := applyDecrements s.products (req.items.take k) },
       500,
       "Database error: " ++ strOfHTTPException 404
         (detailOf (.notFound (req.items.get ⟨k, hk⟩).product_id))) := by
  have hrun : create_order s req ts oid =
      ({ s with products := applyDecrements s.products (req.items.take k) },
       .error (.notFound (req.items.get ⟨k, hk⟩).product_id)) := by
    obtain ⟨acc₂, tot₂, hsplit⟩ :=
      processItems_append (req.items.take k) (req.items.drop k)
        s.products [] 0 hpre
    rw [List.take_append_drop] at hsplit
    rw [List.drop_eq_get_cons hk] at hsplit
    rw [processItems_cons_none _ _ _ _ _ hmiss] at hsplit
    unfold create_order
    rw [hsplit]
  refine ⟨hrun, rfl, ?_⟩
  unfold create_order_http
  rw [hrun]
  show ({ s with products := applyDecrements s.products (req.items.take k) },
        handle_db_operation (strOfHTTPException 404
          (detailOf (.notFound (req.items.get ⟨k, hk⟩).product_id)))) = _
  rw [handle_db_operation_notFound_text]

/-- C3 witness: the amended statement at the concrete no-rollback
request, failing on item index 1 with missing id 99. -/
theorem create_order_notFound_witness :
    (1 < sampleOrderFail.items.length) ∧
    itemsOk sampleStore.products (sampleOrderFail.items.take 1) = true ∧
    findProduct (applyDecrements sampleStore.products
        (sampleOrderFail.items.take 1)) 99 = none ∧
    (create_order sampleStore sampleOrderFail "t" 7 =
      ({ sampleStore with
          products := applyDecrements sampleStore.products
            (sampleOrderFail.items.take 1) },
       .error (.notFound 99)) ∧
     httpStatusOf (.notFound 99) = 404 ∧
     create_order_http sampleStore sampleOrderFail "t" 7 =
      ({ sampleStore with
          products := applyDecrements sampleStore.products
            (sampleOrderFail.items.take 1) },
       500,
       "Database error: " ++ strOfHTTPException 404
         (detailOf (.notFound 99)))) :=
  ⟨by decide, by decide, by decide,
   create_order_notFound sampleStore sampleOrderFail "t" 7 1 (by decide)
     (by decide) (by decide)⟩

/-- C4 counterexample: the claim says an order item with insufficient
stock makes placement fail with InsufficientStock (400-equivalent)
naming the product; buying 9 Laptops with 5 in stock actually yields
status 500 at the HTTP boundary, because the wrapper s blanket
exception handler catches the 400 raised inside the loop and re-raises
its own response (and no order record is created). -/
theorem create_order_insufficient_surfaces_500 :
    (create_order_http sampleStore sampleOrderTooMany "t" 7).2 =
      (500,
       "Database error: 400: Not enough quantity available for product Laptop") ∧
    (create_order_http sampleStore sampleOrderTooMany "t" 7).1.orders = [] :=
  ⟨rfl, rfl⟩

/-- C4 amended: when the first failing item of the request is item k,
whose product exists but holds fewer units than bought_quantity, the
loop raises InsufficientStock (marked 400) whose detail names the
product, but the wrapper s blanket exception handler intercepts it, so
the endpoint answers 500 with detail "Database error: 400: Not enough
quantity available for product <name>" — provided the product name
contains neither "SSL" nor "handshake", which would instead trip the
wrapper s 503 transport branch; no order record is created
(`s.orders` is untouched). -/
theorem create_order_insufficient (s : Store) (req : OrderCreate)
    (ts : String) (oid : Nat) (k : Nat) (p : Product)
    (hk : k < req.items.length)
    (hpre : itemsOk s.products (req.items.take k) = true)
    (hfind : findProduct (applyDecrements s.products (req.items.take k))
      (req.items.get ⟨k, hk⟩).product_id = some p)
    (hlt : p.quantity < (req.items.get ⟨k, hk⟩).bought_quantity)
    (hssl : hasSub (strOfHTTPException 400
      (detailOf (.insufficientStock p.name))) "SSL" = false)
    (hhs : hasSub (strOfHTTPException 400
      (detailOf (.insufficientStock p.name))) "handshake" = false) :
    create_order s req ts oid =
      ({ s with products := applyDecrements s.products (req.items.take k) },
       .error (.insufficientStock p.name)) ∧
    httpStatusOf (.insufficientStock p.name) = 400 ∧
    detailOf (.insufficientStock p.name) =
      "Not enough quantity available for product " ++ p.name ∧
    create_order_http s req ts oid =
      ({ s with products := applyDecrements s.products (req.items.take k) },
       500,
       "Database error: " ++ strOfHTTPException 400
         (detailOf (.insufficientStock p.name))) := by
  have hrun : create_order s req ts oid =
      ({ s with products := applyDecrements s.products (req.items.take k) },
       .error (.insufficientStock p.name)) := by
    obtain ⟨acc₂, tot₂, hsplit⟩ :=
      processItems_append (req.items.take k) (req.items.drop k)
        s.products [] 0 hpre
    rw [List.take_append_drop] at hsplit
    rw [List.drop_eq_get_cons hk] at hsplit
    rw [processItems_cons_insuff _ _ _ _ _ p hfind hlt] at hsplit
    unfold create_order
    rw [hsplit]
  refine ⟨hrun, rfl, rfl, ?_⟩
  unfold create_order_http
  rw [hrun]
  show ({ s with products := applyDecrements s.products (req.items.take k) },
        handle_db_operation (strOfHTTPException 400
          (detailOf (.insufficientStock p.name)))) = _
  unfold handle_db_operation
  rw [hssl, hhs]
  rfl

/-- C4 witness: buying 9 Laptops with 5 in stock, the loop raises the
400 naming the Laptop, the endpoint answers 500, and no order is
created. -/
theorem create_order_insufficient_witness :
    (0 < sampleOrderTooMany.items.length) ∧
    itemsOk sampleStore.products (sampleOrderTooMany.items.take 0) = true ∧
    findProduct (applyDecrements sampleStore.products
        (sampleOrderTooMany.items.take 0)) 1 =
      some ⟨"Laptop", 999, 5⟩ ∧
    ((5 : Int) < 9) ∧
    hasSub (strOfHTTPException 400
      (detailOf (.insufficientStock "Laptop"))) "SSL" = false ∧
    hasSub (strOfHTTPException 400
      (detailOf (.insufficientStock "Laptop"))) "handshake" = false ∧
    (create_order sampleStore sampleOrderTooMany "t" 7 =
      ({ sampleStore with
          products := applyDecrements sampleStore.products
            (sampleOrderTooMany.items.take 0) },
       .error (.insufficientStock "Laptop")) ∧
     httpStatusOf (.insufficientStock "Laptop") = 400 ∧
     detailOf (.insufficientStock "Laptop") =
       "Not enough quantity available for product " ++ "Laptop" ∧
     create_order_http sampleStore sampleOrderTooMany "t" 7 =
      ({ sampleStore with
          products := applyDecrements sampleStore.products
            (sampleOrderTooMany.items.take 0) },
       500,
       "Database error: " ++ strOfHTTPException 400
         (detailOf (.insufficientStock "Laptop")))) ∧
    (create_order_http sampleStore sampleOrderTooMany "t" 7).1.orders = [] :=
  ⟨by decide, by decide, by decide, by decide, by decide, by decide,
   create_order_insufficient sampleStore sampleOrderTooMany "t" 7 0
     ⟨"Laptop", 999, 5⟩ (by decide) (by decide) (by decide) (by decide)
     (by decide) (by decide),
   rfl⟩

/-- C5: GET /orders/user_id never reads its user_id path parameter:
for a fixed store and pagination, any two user ids produce the same
page, namely the global page of all orders. -/
theorem get_user_orders_ignores_user_id (s : Store) (u₁ u₂ : String)
    (limit offset : Nat) :
    get_user_orders s u₁ limit offset = get_user_orders s u₂ limit offset ∧
    get_user_orders s u₁ limit offset = mongoPage limit offset s.orders :=
  ⟨rfl, rfl⟩

/-- C6 counterexample: the claim says the raw underlying error text is
included in the response body in both the 503 and the 500 case; for an
escaped exception whose text mentions SSL, the handler answers 503
with a fixed detail that does not contain that text. -/
theorem handle_db_operation_hides_raw_text :
    handle_db_operation "SSL handshake failed" =
      (503, "Database connection issue. Please check MongoDB Atlas configuration.") ∧
    hasSub "Database connection issue. Please check MongoDB Atlas configuration."
      "SSL handshake failed" = false :=
  ⟨rfl, by decide⟩

/-- C6 amended: an escaped store exception whose text contains "SSL"
or "handshake" yields status 503 with a fixed generic detail (the raw
text is not echoed); any other text yields status 500 with detail
"Database error: " followed by the raw text, which therefore contains
it. -/
theorem handle_db_operation_spec (msg : String) :
    ((hasSub msg "SSL" || hasSub msg "handshake") = true →
      handle_db_operation msg =
        (503, "Database connection issue. Please check MongoDB Atlas configuration.")) ∧
    ((hasSub msg "SSL" || hasSub msg "handshake") = false →
      handle_db_operation msg = (500, "Database error: " ++ msg) ∧
      hasSub ("Database error: " ++ msg) msg = true) := by
  constructor
  · intro h
    simp [handle_db_operation, h]
  · intro h
    refine ⟨by simp [handle_db_operation, h], ?_⟩
    unfold hasSub
    rw [String.data_append]
    exact containsSub_append_self _ _

/-- C6 witness: a transport-looking text gets the fixed 503 body and a
plain text gets the 500 body carrying it verbatim. -/
theorem handle_db_operation_spec_witness :
    (hasSub "SSL routines error" "SSL" || hasSub "SSL routines error" "handshake") = true ∧
    handle_db_operation "SSL routines error" =
      (503, "Database connection issue. Please check MongoDB Atlas configuration.") ∧
    (hasSub "connection reset" "SSL" || hasSub "connection reset" "handshake") = false ∧
    (handle_db_operation "connection reset" =
      (500, "Database error: " ++ "connection reset") ∧
     hasSub ("Database error: " ++ "connection reset") "connection reset" = true) :=
  ⟨by decide, (handle_db_operation_spec "SSL routines error").1 (by decide),
   by decide, (handle_db_operation_spec "connection reset").2 (by decide)⟩

/-- C7 counterexample: the claim says the name filter behaves as plain
case-insensitive substring containment for every filter string,
including ones with regex metacharacters; the filter "lap." is passed
to the store as a regex, so it matches the product named "Laptop"
although "lap." is not a substring of its name. -/
theorem list_products_regex_not_substring :
    list_products sampleStore (some "lap.") none 10 0 =
      [(1, ⟨"Laptop", 999, 5⟩)] ∧
    hasSubI "Laptop" "lap." = false :=
  ⟨by decide, by decide⟩

/-- C7 amended: for a non-empty name filter containing no regex
metacharacter, listing with no size filter and no pagination cap
returns exactly the products whose name contains the filter text
case-insensitively as a substring anywhere in the name; a filter
containing metacharacters is interpreted as a regex instead and can
diverge from substring semantics. -/
theorem list_products_name_filter (s : Store) (f : String) (hf : ¬ f = "")
    (hm : (f.data.all (fun c => !(regexMeta.contains c))) = true) :
    list_products s (some f) none 0 0 =
      s.products.filter (fun x => hasSubI x.2.name f) := by
  have h : ∀ c ∈ f.data, ¬ regexMeta.contains c = true := by
    intro c hc
    simpa using List.all_eq_true.mp hm c hc
  unfold list_products mongoPage
  rw [if_pos rfl, List.drop_zero]
  apply List.filter_congr
  intro x _
  show ((if f = "" then true else regexSearchI f x.2.name) && true) =
    hasSubI x.2.name f
  rw [if_neg hf, regexSearchI_lits f x.2.name h, Bool.and_true]

/-- C7 witness: filtering by "lap" returns the Laptop and not the
Desk, matching case-insensitive substring containment. -/
theorem list_products_name_filter_witness :
    (¬ "lap" = "") ∧
    ("lap".data.all (fun c => !(regexMeta.contains c))) = true ∧
    list_products sampleStore (some "lap") none 0 0 =
      sampleStore.products.filter (fun x => hasSubI x.2.name "lap") ∧
    list_products sampleStore (some "lap") none 0 0 =
      [(1, ⟨"Laptop", 999, 5⟩)] ∧
    hasSubI "Laptop" "lap" = true ∧
    hasSubI "Desk" "lap" = false :=
  ⟨by decide, by decide,
   list_products_name_filter sampleStore "lap" (by decide) (by decide),
   by decide, by decide, by decide⟩

/-- C8 counterexample: the claim says product creation preserves
non-negativity of every stored quantity; creating a product with
quantity -1 over the empty store yields a store violating it, since
`create_product` performs no validation. -/
theorem create_product_breaks_nonneg :
    (∀ x ∈ emptyStore.products, 0 ≤ x.2.quantity) ∧
    ¬ (∀ x ∈ (create_product emptyStore 1 ⟨"Bad", 1, -1⟩).products,
        0 ≤ x.2.quantity) := by
  constructor
  · intro x hx
    simp [emptyStore] at hx
  · intro hall
    have h1 : (1, (⟨"Bad", 1, -1⟩ : Product)) ∈
        (create_product emptyStore 1 ⟨"Bad", 1, -1⟩).products := by decide
    exact absurd (hall _ h1) (by decide)

/-- C8 amended: over a store whose products all have non-negative
quantity, order placement always preserves non-negativity of every
stored quantity (the stock check guards each write, even on partially
failed requests), and product creation preserves it exactly when the
created quantity is itself non-negative — creation has no guard of
its own. -/
theorem stock_nonneg_preserved (s : Store) (nid : Nat) (p : Product)
    (req : OrderCreate) (ts : String) (oid : Nat)
    (h : ∀ x ∈ s.products, 0 ≤ x.2.quantity) :
    (0 ≤ p.quantity →
      ∀ x ∈ (create_product s nid p).products, 0 ≤ x.2.quantity) ∧
    (∀ x ∈ (create_order s req ts oid).1.products, 0 ≤ x.2.quantity) := by
  constructor
  · intro hp x hx
    unfold create_product at hx
    rcases List.mem_append.mp hx with h1 | h2
    · exact h x h1
    · rw [List.mem_singleton.mp h2]
      exact hp
  · intro x hx
    rw [create_order_products_eq] at hx
    exact processItems_fst_nonneg req.items s.products [] 0 h x hx

/-- C8 witness: the sample store stays non-negative under a creation
with quantity 3 and under the sample order. -/
theorem stock_nonneg_preserved_witness :
    (∀ x ∈ sampleStore.products, 0 ≤ x.2.quantity) ∧
    ((0 ≤ (Product.mk "Chair" 5 3).quantity →
      ∀ x ∈ (create_product sampleStore 3 ⟨"Chair", 5, 3⟩).products,
        0 ≤ x.2.quantity) ∧
     (∀ x ∈ (create_order sampleStore sampleOrder "t" 7).1.products,
        0 ≤ x.2.quantity)) :=
  ⟨by decide,
   stock_nonneg_preserved sampleStore 3 ⟨"Chair", 5, 3⟩ sampleOrder "t" 7
     (by decide)⟩

/-- C9: GET / runs exactly the query of GET /products; whenever the
page is non-empty the two endpoints answer with the same body, and on
an empty page GET /products answers the bare empty products object
while GET / additionally carries the message, note and status keys
alongside the empty products list. -/
theorem root_matches_list_products (s : Store) (name size : Option String)
    (limit offset : Nat) :
    (¬ list_products s name size limit offset = [] →
      root s name size limit offset =
        listProductsResponse s name size limit offset) ∧
    (list_products s name size limit offset = [] →
      listProductsResponse s name size limit offset = .plain [] ∧
      root s name size limit offset =
        .withInfo "Ecommerce Backend API is running!" []
          "No products found. Use POST /products to add products."
          "Database connected successfully") := by
  constructor
  · intro h
    have h2 : (list_products s name size limit offset).isEmpty = false := by
      cases hl : list_products s name size limit offset
      · exact absurd hl h
      · rfl
    unfold root listProductsResponse
    simp [h2]
  · intro h
    unfold root listProductsResponse
    rw [h]
    exact ⟨rfl, rfl⟩

/-- C9 witness: over the sample store with no filter the two bodies
coincide; over the empty store they diverge as described. -/
theorem root_matches_list_products_witness :
    (¬ list_products sampleStore none none 10 0 = []) ∧
    root sampleStore none none 10 0 =
      listProductsResponse sampleStore none none 10 0 ∧
    list_products emptyStore none none 10 0 = [] ∧
    (listProductsResponse emptyStore none none 10 0 = .plain [] ∧
     root emptyStore none none 10 0 =
       .withInfo "Ecommerce Backend API is running!" []
         "No products found. Use POST /products to add products."
         "Database connected successfully") :=
  ⟨by decide,
   (root_matches_list_products sampleStore none none 10 0).1 (by decide),
   rfl,
   (root_matches_list_products emptyStore none none 10 0).2 rfl⟩

/-- C10: an order item with non-positive bought_quantity against an
existing product with non-negative quantity and non-negative price is
not rejected: the stock check is false, the single-item order
succeeds, the stored quantity becomes quantity - bought_quantity (an
increase for a negative bought_quantity), and the recorded line
contributes price * bought_quantity ≤ 0 to total_amount. -/
theorem create_order_nonpositive_quantity (s : Store) (pid : Nat) (b : Int)
    (p : Product) (addr : Address) (ts : String) (oid : Nat)
    (hfind : findProduct s.products pid = some p)
    (hq : 0 ≤ p.quantity) (hb : b ≤ 0) (hp : 0 ≤ p.price) :
    ¬ p.quantity < b ∧
    create_order s ⟨[⟨pid, b⟩], addr⟩ ts oid =
      ({ products := updateQuantity s.products pid (p.quantity - b),
         orders := s.orders ++
           [(oid, { items := [⟨pid, b, p.price, p.price * (b : Rat)⟩],
                    total_amount := p.price * (b : Rat),
                    user_address := addr, timestamp := ts })] },
       .ok ()) ∧
    qtyOf (updateQuantity s.products pid (p.quantity - b)) pid =
      some (p.quantity - b) ∧
    p.quantity ≤ p.quantity - b ∧
    p.price * (b : Rat) ≤ 0 := by
  have hq' : ¬ p.quantity < b := by omega
  have hrun : processItems s.products [⟨pid, b⟩] [] 0 =
      (updateQuantity s.products pid (p.quantity - b),
       .ok ([⟨pid, b, p.price, p.price * (b : Rat)⟩],
            0 + p.price * (b : Rat))) := by
    rw [processItems_cons_ok s.products ⟨pid, b⟩ [] [] 0 p hfind hq',
        processItems_nil]
    rfl
  refine ⟨hq', ?_, ?_, by omega, ?_⟩
  · unfold create_order
    rw [hrun, zero_add]
  · rw [qtyOf, findProduct_updateQuantity_self s.products pid _ p hfind]
    rfl
  · have hb' : (b : Rat) ≤ 0 := by exact_mod_cast hb
    exact mul_nonpos_iff.mpr (Or.inl ⟨hp, hb'⟩)

/-- C10 witness: buying -3 Laptops raises the stock from 5 to 8 and
records a line total of -2997. -/
theorem create_order_nonpositive_quantity_witness :
    findProduct sampleStore.products 1 = some ⟨"Laptop", 999, 5⟩ ∧
    (0 ≤ (Product.mk "Laptop" 999 5).quantity) ∧
    ((-3 : Int) ≤ 0) ∧
    (0 ≤ (Product.mk "Laptop" 999 5).price) ∧
    (¬ (Product.mk "Laptop" 999 5).quantity < (-3 : Int) ∧
     create_order sampleStore ⟨[⟨1, -3⟩], []⟩ "t" 7 =
       ({ products := updateQuantity sampleStore.products 1
            ((Product.mk "Laptop" 999 5).quantity - (-3)),
          orders := sampleStore.orders ++
            [(7, { items := [⟨1, -3, (999 : Rat), (999 : Rat) * ((-3 : Int) : Rat)⟩],
                   total_amount := (999 : Rat) * ((-3 : Int) : Rat),
                   user_address := [], timestamp := "t" })] },
        .ok ()) ∧
     qtyOf (updateQuantity sampleStore.products 1
        ((Product.mk "Laptop" 999 5).quantity - (-3))) 1 =
       some ((Product.mk "Laptop" 999 5).quantity - (-3)) ∧
     (Product.mk "Laptop" 999 5).quantity ≤
       (Product.mk "Laptop" 999 5).quantity - (-3) ∧
     (999 : Rat) * ((-3 : Int) : Rat) ≤ 0) ∧
    qtyOf (create_order sampleStore ⟨[⟨1, -3⟩], []⟩ "t" 7).1.products 1 =
      some 8 :=
  ⟨by decide, by decide, by decide, by decide,
   create_order_nonpositive_quantity sampleStore 1 (-3) ⟨"Laptop", 999, 5⟩
     [] "t" 7 (by decide) (by decide) (by decide) (by decide),
   by decide⟩

end Ecom
